import Mathlib

/-!
Shallow embedding of the etcd v2 lock module's acquire handler
(`mod/lock/v2/acquire_handler.go`).

The Go handler talks to an external coordination store through a client
(`Get`, `AddChild`, `Update`, `Delete`, `Watch`) and to the HTTP layer
through a close-notification channel.  The embedding turns each handler
function into a pure function over an explicit environment that scripts
the store's responses, and additionally returns the trace of store
effects the handler issued, so that statements about "which store calls
happened" can be made.  Goroutine interleaving is serialised: the lease
keepalive loop is modelled separately over a serialised list of the
events its `select` observes.

Machine integers: Go `int` is modelled as `Int`; the `uint64(ttl)`
conversions at client call sites are modelled by reduction mod 2^64.
`strconv.Atoi`'s range errors (overflow) are not modelled; its
sign/digit grammar is.
-/

deriving instance DecidableEq for Except

namespace EtcdLock

/-- One child node under the lock key path, as returned by the store's
`Get` (etcd `Node`): its full key and its associated value. -/
structure LNode where
  key : String
  value : String
  deriving DecidableEq

/-- Result of a successful recursive `Get` on the lock key path:
the parent directory node's `ModifiedIndex` and its child nodes. -/
structure GetResp where
  modifiedIndex : Nat
  nodes : List LNode
  deriving DecidableEq

/-- Outcome of one blocking `client.Watch` call: normal completion,
`etcd.ErrWatchStoppedByUser`, or another error. -/
inductive WRes where
  | ok : WRes
  | stoppedByUser : WRes
  | err (msg : String) : WRes
  deriving DecidableEq

/-- The store's scripted responses for one iteration of the watch loop:
the result of the `Get`, and (when the loop reaches it) the result of
the blocking `Watch` on the predecessor. -/
structure WatchIter where
  getRes : Except String GetResp
  watchRes : WRes
  deriving DecidableEq

/-- A store/client call issued by the handler, recorded in a trace.
`watchStart b` records entry to the `watch` function with `b` true
exactly when a non-nil close channel was passed (the cancellation
forwarding goroutine is wired to a real signal); `spawnKeepAlive`
records the `go h.ttlKeepAlive(...)` spawn; `sleep` records the
`time.After` arm of the keepalive's `select` firing after the given
number of seconds. -/
inductive Effect where
  | syncCluster : Effect
  | get (keypath : String) : Effect
  | addChild (keypath value : String) (ttl : Nat) : Effect
  | update (key value : String) (ttl : Nat) : Effect
  | delete (key : String) (recursive : Bool) : Effect
  | watchCall (watchpath : String) (waitIndex : Nat) : Effect
  | watchStart (closeWired : Bool) : Effect
  | spawnKeepAlive (key value : String) (ttl : Int) : Effect
  | sleep (seconds : Int) : Effect
  deriving DecidableEq

/-- Result of the embedded watch loop: the lock was acquired (`nil`
error in Go), the loop returned an error, or the response script was
exhausted while the loop was still blocked (`running`). -/
inductive WatchResult where
  | acquired : WatchResult
  | failed (msg : String) : WatchResult
  | running : WatchResult
  deriving DecidableEq

/-- Result of one acquire path (`createNode` or the reuse branch):
the `(index, err)` pair the Go code produces, or `running` when the
script was exhausted mid-wait. -/
inductive CallResult where
  | done (index : Int) (err : Option String) : CallResult
  | running : CallResult
  deriving DecidableEq

/-- The HTTP-visible outcome of the handler: an `http.Error` body, a
written index on success, or `running` when the script was exhausted. -/
inductive HResult where
  | httpError (msg : String) : HResult
  | ok (index : Int) : HResult
  | running : HResult
  deriving DecidableEq

/-- One event observed by the keepalive loop's `select`: the
`time.After(ttl/2)` timer fired, or the stop channel was closed. -/
inductive KeepSig where
  | tick : KeepSig
  | stop : KeepSig
  deriving DecidableEq

/-- The scripted store responses for one acquire call: the `Get` used
by `findExistingNode`, the `AddChild` result (the created node's key on
success), the watch-loop iterations, whether the close channel has
fired by the time of the post-watch non-blocking check, and the
results of the final `Update` and of the cleanup `Delete` (both of
which the Go code discards). -/
structure AcquireEnv where
  getExisting : Except String GetResp
  addChild : Except String String
  watchScript : List WatchIter
  closeFired : Bool
  finalUpdate : Except String Unit
  deleteRes : Except String Unit
  deriving DecidableEq

/-- Accumulate decimal digits; any non-digit character is an error
(Go `strconv.Atoi` grammar after the optional sign). -/
def parseDigitsAux : List Char → Nat → Option Nat
  | [], acc => some acc
  | c :: cs, acc =>
      if c.isDigit then parseDigitsAux cs (acc * 10 + (c.toNat - 48)) else none

/-- Parse a non-empty all-digit string to a natural number. -/
def parseDigits (cs : List Char) : Option Nat :=
  if cs.isEmpty then none else parseDigitsAux cs 0

/-- Model of Go `strconv.Atoi`: optional sign followed by at least one
decimal digit; anything else is an error (range errors not modelled). -/
def Atoi (s : String) : Option Int :=
  match s.data with
  | '-' :: rest => (parseDigits rest).map (fun n => -(n : Int))
  | '+' :: rest => (parseDigits rest).map (fun n => (n : Int))
  | cs => (parseDigits cs).map (fun n => (n : Int))

/-- Model of Go's `uint64(i)` conversion of an `int`. -/
def uint64 (i : Int) : Nat := (i % ((2 : Int) ^ 64)).toNat

/-- Model of Go `path.Join` for the non-degenerate shapes the handler
uses (no embedded `//` cleaning is needed for these inputs). -/
def pathJoin (a b : String) : String :=
  if a = "" then b else if b = "" then a else a ++ "/" ++ b

/-- Split a character list on `/`. -/
def splitOnSlash : List Char → List (List Char)
  | [] => [[]]
  | c :: cs =>
      let r := splitOnSlash cs
      if c = '/' then [] :: r
      else
        match r with
        | [] => [[c]]
        | h :: t => (c :: h) :: t

/-- Model of Go `path.Base`: the last nonempty path component
(`"."` for the empty string, `"/"` for all-slash strings). -/
def pathBase (s : String) : String :=
  match ((splitOnSlash s.data).filter (fun c => !c.isEmpty)).getLast? with
  | some c => String.mk c
  | none => if s = "" then "." else "/"

/-- The sequence index carried by a lock entry: Go parses it with
`strconv.Atoi(path.Base(node.Key))`, defaulting to 0 when the parse
errors (the error is discarded). -/
def nodeIndex (n : LNode) : Int := (Atoi (pathBase n.key)).getD 0

namespace lockNodes

/-- Modelled from the spec: `lockNodes.FindByValue` lives in
`mod/lock/v2/lock_nodes.go`, which is not part of the sources here.
Spec §4.1: "returns the entry whose associated value equals the given
value, or none". -/
def FindByValue (nodes : List LNode) (value : String) : Option LNode :=
  nodes.find? (fun n => n.value == value)

/-- Modelled from the spec: `lockNodes.PrevIndex` lives in
`mod/lock/v2/lock_nodes.go`, which is not part of the sources here.
Spec §4.1: "the largest sequence index in the snapshot that is
strictly less than `index` … returns 0 (a sentinel meaning 'no
predecessor / I am first') when no such entry exists". -/
def PrevIndex (nodes : List LNode) (index : Int) : Int :=
  ((nodes.map nodeIndex).filter (fun k => decide (k < index))).foldl max 0

end lockNodes

/-- Modelled from the spec: the fixed namespace prefix under which lock
key paths live (declared outside this file; spec §3: "a hierarchical
name under a fixed namespace prefix"). -/
def lockRoot : String := "/_etcd/mod/lock"

/-- The `for` loop of `watch` (acquire_handler.go:151-173): each
iteration re-reads all nodes under the lock key path; a `Get` error
returns `lock watch lookup error: …`; when `PrevIndex` is 0 the lock
is acquired; otherwise the loop blocks watching the predecessor's path
seeded with the parent's `ModifiedIndex`, mapping
`ErrWatchStoppedByUser` to `lock watch closed`, any other watch error
to `lock watch error:…`, and looping on normal completion. -/
def watchLoop (keypath : String) (index : Int) : List WatchIter → WatchResult × List Effect
  | [] => (WatchResult.running, [])
  | it :: rest =>
      match it.getRes with
      | Except.error e =>
          (WatchResult.failed ("lock watch lookup error: " ++ e), [Effect.get keypath])
      | Except.ok resp =>
          let prevIndex := lockNodes.PrevIndex resp.nodes index
          if prevIndex = 0 then
            (WatchResult.acquired, [Effect.get keypath])
          else
            let wpath := pathJoin keypath (toString prevIndex)
            match it.watchRes with
            | WRes.stoppedByUser =>
                (WatchResult.failed "lock watch closed",
                 [Effect.get keypath, Effect.watchCall wpath resp.modifiedIndex])
            | WRes.err e =>
                (WatchResult.failed ("lock watch error:" ++ e),
                 [Effect.get keypath, Effect.watchCall wpath resp.modifiedIndex])
            | WRes.ok =>
                let r := watchLoop keypath index rest
                (r.fst, Effect.get keypath :: Effect.watchCall wpath resp.modifiedIndex :: r.snd)

/-- `watch` (acquire_handler.go:139-173): spawns the forwarding
goroutine for the close channel (recorded as `watchStart closeWired`,
with `closeWired = false` when the Go caller passed `nil`) and runs the
loop. -/
def watch (keypath : String) (index : Int) (closeWired : Bool)
    (script : List WatchIter) : WatchResult × List Effect :=
  let r := watchLoop keypath index script
  (r.fst, Effect.watchStart closeWired :: r.snd)

/-- `ttlKeepAlive` (acquire_handler.go:126-135) over the serialised
list of events its `select` observes: each timer tick sleeps
`ttl / 2` seconds (Go integer division truncates toward zero, hence
`Int.tdiv`) then rewrites the entry with the same value and the
original TTL; the stop signal returns immediately.  The boolean records
whether the loop terminated (it never does on its own). -/
def ttlKeepAlive (k value : String) (ttl : Int) : List KeepSig → List Effect × Bool
  | [] => ([], false)
  | KeepSig.tick :: rest =>
      let r := ttlKeepAlive k value ttl rest
      (Effect.sleep (Int.tdiv ttl 2) :: Effect.update k value (uint64 ttl) :: r.fst, r.snd)
  | KeepSig.stop :: _ => ([], true)

/-- `findExistingNode` (acquire_handler.go:111-123): when the value is
non-empty, `Get` the lock path; on success look the value up among the
children and parse the found node's base key (parse errors discarded);
every failure falls through to 0. -/
def findExistingNode (keypath value : String)
    (getRes : Except String GetResp) : Int × List Effect :=
  if 0 < value.length then
    match getRes with
    | Except.ok resp =>
        match lockNodes.FindByValue resp.nodes value with
        | some node => ((Atoi (pathBase node.key)).getD 0, [Effect.get keypath])
        | none => (0, [Effect.get keypath])
    | Except.error _ => (0, [Effect.get keypath])
  else (0, [])

/-- `createNode` (acquire_handler.go:71-108): default the value to
`"-"`, `AddChild`, spawn the keepalive, run the watch with the close
channel wired, rewrite any error to `user interrupted` when the close
channel has fired, then `Update` on success (result discarded) or
`Delete` on failure (result discarded). -/
def createNode (keypath value : String) (ttl : Int) (env : AcquireEnv) :
    CallResult × List Effect :=
  let v := if value.length = 0 then "-" else value
  match env.addChild with
  | Except.error e =>
      (CallResult.done 0 (some ("acquire lock index error: " ++ e)),
       [Effect.addChild keypath v (uint64 ttl)])
  | Except.ok indexpath =>
      let index := (Atoi (pathBase indexpath)).getD 0
      let wr := watch keypath index true env.watchScript
      let effs := Effect.addChild keypath v (uint64 ttl)
        :: Effect.spawnKeepAlive indexpath v ttl :: wr.snd
      match wr.fst with
      | WatchResult.running => (CallResult.running, effs)
      | WatchResult.acquired =>
          (CallResult.done index none, effs ++ [Effect.update indexpath v (uint64 ttl)])
      | WatchResult.failed m =>
          let m2 := if env.closeFired then "acquire lock error: user interrupted" else m
          (CallResult.done index (some m2), effs ++ [Effect.delete indexpath false])

/-- Map a watch-loop outcome to the `(index, err)` pair the reuse
branch of `acquireHandler` produces. -/
def watchToCall (index : Int) : WatchResult → CallResult
  | WatchResult.acquired => CallResult.done index none
  | WatchResult.failed m => CallResult.done index (some m)
  | WatchResult.running => CallResult.running

/-- The branch of `acquireHandler` after parsing (lines 51-57): reuse
an existing node when `findExistingNode` returned a positive index
(watching it with a nil close channel), otherwise create one. -/
def acquireMain (keypath value : String) (ttl : Int) (env : AcquireEnv) :
    CallResult × List Effect :=
  let fr := findExistingNode keypath value env.getExisting
  if 0 < fr.fst then
    let wr := watch keypath fr.fst false env.watchScript
    (watchToCall fr.fst wr.fst, fr.snd ++ wr.snd)
  else
    let cr := createNode keypath value ttl env
    (cr.fst, fr.snd ++ cr.snd)

/-- Timeout parsing (lines 36-41): an absent timeout defaults to -1,
anything else must satisfy `Atoi`. -/
def parseTimeout (s : String) : Option Int :=
  if s = "" then some (-1) else Atoi s

/-- Map the `(index, err)` pair to the HTTP response (lines 62-67). -/
def respond : CallResult → HResult
  | CallResult.done i none => HResult.ok i
  | CallResult.done _ (some m) => HResult.httpError m
  | CallResult.running => HResult.running

/-- `acquireHandler` (acquire_handler.go:20-68): sync the cluster,
parse timeout then ttl (rejecting with `invalid timeout:`/`invalid
ttl:` and performing no further store call), increment the timeout,
then run the reuse-or-create branch and write the response. -/
def acquireHandler (key value ttlStr timeoutStr : String) (env : AcquireEnv) :
    HResult × List Effect :=
  let keypath := pathJoin lockRoot key
  match parseTimeout timeoutStr with
  | none => (HResult.httpError ("invalid timeout: " ++ timeoutStr), [Effect.syncCluster])
  | some timeout =>
      let _ := timeout + 1
      match Atoi ttlStr with
      | none => (HResult.httpError ("invalid ttl: " ++ ttlStr), [Effect.syncCluster])
      | some ttl =>
          let mr := acquireMain keypath value ttl env
          (respond mr.fst, Effect.syncCluster :: mr.snd)

/-- Store operations proper (as opposed to trace bookkeeping entries):
the calls that reach the coordination store's lock data. -/
def isStoreOp : Effect → Bool
  | Effect.get _ => true
  | Effect.addChild _ _ _ => true
  | Effect.update _ _ _ => true
  | Effect.delete _ _ => true
  | Effect.watchCall _ _ => true
  | _ => false

/-- A scripted environment on which the handler takes the creation
path and acquires immediately: the created child is the only entry
(spec §8, scenario A shape). -/
def envCreateOk : AcquireEnv :=
  { getExisting := Except.ok ⟨4, []⟩
  , addChild := Except.ok "/_etcd/mod/lock/db/3"
  , watchScript := [⟨Except.ok ⟨7, [⟨"/_etcd/mod/lock/db/3", "-"⟩]⟩, WRes.ok⟩]
  , closeFired := false
  , finalUpdate := Except.ok ()
  , deleteRes := Except.ok () }

/-- A scripted environment on which the handler takes the creation
path and the blocking watch fails with a store error. -/
def envCreateFail : AcquireEnv :=
  { getExisting := Except.ok ⟨4, []⟩
  , addChild := Except.ok "/_etcd/mod/lock/db/4"
  , watchScript := [⟨Except.ok ⟨9, [⟨"/_etcd/mod/lock/db/1", "x"⟩,
                                    ⟨"/_etcd/mod/lock/db/4", "-"⟩]⟩,
                     WRes.err "conn reset"⟩]
  , closeFired := false
  , finalUpdate := Except.ok ()
  , deleteRes := Except.ok () }

/-- A scripted environment on which the handler finds an existing
entry for its value and the watch loop acquires at once. -/
def envReuseOk : AcquireEnv :=
  { getExisting := Except.ok ⟨5, [⟨"/_etcd/mod/lock/db/2", "clientA"⟩]⟩
  , addChild := Except.error "unused"
  , watchScript := [⟨Except.ok ⟨6, [⟨"/_etcd/mod/lock/db/2", "clientA"⟩]⟩, WRes.ok⟩]
  , closeFired := false
  , finalUpdate := Except.ok ()
  , deleteRes := Except.ok () }

/-- A scripted environment on which the handler finds an existing
entry, blocks behind a predecessor, and the in-flight watch is stopped
while the client's close notification has already fired. -/
def envReuseCancel : AcquireEnv :=
  { getExisting := Except.ok ⟨5, [⟨"/_etcd/mod/lock/db/1", "other"⟩,
                                  ⟨"/_etcd/mod/lock/db/2", "clientA"⟩]⟩
  , addChild := Except.error "unused"
  , watchScript := [⟨Except.ok ⟨6, [⟨"/_etcd/mod/lock/db/1", "other"⟩,
                                    ⟨"/_etcd/mod/lock/db/2", "clientA"⟩]⟩,
                     WRes.stoppedByUser⟩]
  , closeFired := true
  , finalUpdate := Except.ok ()
  , deleteRes := Except.ok () }

theorem le_foldl_max_init (l : List Int) (a : Int) : a ≤ l.foldl max a := by
  induction l generalizing a with
  | nil => exact le_refl a
  | cons x xs ih => exact le_trans (le_max_left a x) (ih (max a x))

theorem le_foldl_max_of_mem (l : List Int) (x : Int) :
    x ∈ l → ∀ a : Int, x ≤ l.foldl max a := by
  induction l with
  | nil => intro hx; cases hx
  | cons y ys ih =>
      intro hx a
      rcases List.mem_cons.mp hx with h | h
      · subst h
        exact le_trans (le_max_right a x) (le_foldl_max_init ys (max a x))
      · exact ih h (max a y)

theorem foldl_max_mem_or_init (l : List Int) (a : Int) :
    l.foldl max a = a ∨ l.foldl max a ∈ l := by
  induction l generalizing a with
  | nil => left; rfl
  | cons x xs ih =>
      rcases ih (max a x) with h | h
      · rw [List.foldl_cons, h]
        rcases max_choice a x with he | he
        · left; exact he
        · right; rw [he]; exact List.mem_cons_self x xs
      · right
        exact List.mem_cons_of_mem x (by rw [List.foldl_cons]; exact h)

/-- The sentinel characterisation of `PrevIndex` on snapshots whose
entries all carry positive indices: the predecessor query returns 0
exactly when no live entry's index is below the caller's. -/
theorem prevIndex_eq_zero_iff (nodes : List LNode) (i : Int)
    (hpos : ∀ n ∈ nodes, 0 < nodeIndex n) :
    lockNodes.PrevIndex nodes i = 0 ↔ ∀ k ∈ nodes.map nodeIndex, i ≤ k := by
  unfold lockNodes.PrevIndex
  constructor
  · intro h k hk
    by_contra hlt
    push_neg at hlt
    have hk2 : k ∈ (nodes.map nodeIndex).filter (fun k => decide (k < i)) :=
      List.mem_filter.mpr ⟨hk, by simpa using hlt⟩
    have hle := le_foldl_max_of_mem _ k hk2 0
    obtain ⟨n, hn, rfl⟩ := List.mem_map.mp hk
    have hp := hpos n hn
    omega
  · intro h
    rcases foldl_max_mem_or_init
        ((nodes.map nodeIndex).filter (fun k => decide (k < i))) 0 with he | hm
    · exact he
    · exfalso
      have hm2 := List.mem_filter.mp hm
      have h1 := h _ hm2.1
      have h2 := of_decide_eq_true hm2.2
      omega

/-- On a one-iteration script with a successful `Get`, the watch loop
acquires exactly when the predecessor query returns the sentinel 0. -/
theorem watchLoop_singleton_acquired (kp : String) (i : Int) (snap : GetResp) (w : WRes) :
    (watchLoop kp i [⟨Except.ok snap, w⟩]).fst = WatchResult.acquired ↔
      lockNodes.PrevIndex snap.nodes i = 0 := by
  by_cases h : lockNodes.PrevIndex snap.nodes i = 0
  · simp [watchLoop, h]
  · cases w <;> simp [watchLoop, h]

/-- C1: Mutual exclusion — over any single linearised snapshot of the
live entries (all of which carry positive store-assigned indices), at
most one caller's watch-loop check can observe success, and a caller's
check succeeds exactly when its index is strictly the minimum among
the currently-live entries' indices. -/
theorem mutual_exclusion_invariant (kp : String) (snap : GetResp) (i j : Int)
    (hpos : ∀ n ∈ snap.nodes, 0 < nodeIndex n)
    (hi : i ∈ snap.nodes.map nodeIndex) (hj : j ∈ snap.nodes.map nodeIndex) :
    ((watchLoop kp i [⟨Except.ok snap, WRes.ok⟩]).fst = WatchResult.acquired →
      (watchLoop kp j [⟨Except.ok snap, WRes.ok⟩]).fst = WatchResult.acquired → i = j)
    ∧ ((watchLoop kp i [⟨Except.ok snap, WRes.ok⟩]).fst = WatchResult.acquired ↔
        ∀ k ∈ snap.nodes.map nodeIndex, k ≠ i → i < k) := by
  have hchar : ∀ m : Int,
      ((watchLoop kp m [⟨Except.ok snap, WRes.ok⟩]).fst = WatchResult.acquired ↔
        ∀ k ∈ snap.nodes.map nodeIndex, m ≤ k) := fun m =>
    (watchLoop_singleton_acquired kp m snap WRes.ok).trans
      (prevIndex_eq_zero_iff snap.nodes m hpos)
  constructor
  · intro ha hb
    have h1 := (hchar i).mp ha j hj
    have h2 := (hchar j).mp hb i hi
    omega
  · rw [hchar i]
    constructor
    · intro h k hk hne
      have := h k hk
      omega
    · intro h k hk
      by_cases he : k = i
      · omega
      · exact le_of_lt (h k hk he)

/-- Witness for C1 at a concrete two-entry snapshot. -/
theorem mutual_exclusion_invariant_witness :
    ((watchLoop "/_etcd/mod/lock/db" 1
        [⟨Except.ok ⟨7, [⟨"/_etcd/mod/lock/db/1", "a"⟩, ⟨"/_etcd/mod/lock/db/2", "b"⟩]⟩,
          WRes.ok⟩]).fst = WatchResult.acquired →
      (watchLoop "/_etcd/mod/lock/db" 2
        [⟨Except.ok ⟨7, [⟨"/_etcd/mod/lock/db/1", "a"⟩, ⟨"/_etcd/mod/lock/db/2", "b"⟩]⟩,
          WRes.ok⟩]).fst = WatchResult.acquired → (1 : Int) = 2)
    ∧ ((watchLoop "/_etcd/mod/lock/db" 1
        [⟨Except.ok ⟨7, [⟨"/_etcd/mod/lock/db/1", "a"⟩, ⟨"/_etcd/mod/lock/db/2", "b"⟩]⟩,
          WRes.ok⟩]).fst = WatchResult.acquired ↔
        ∀ k ∈ ([⟨"/_etcd/mod/lock/db/1", "a"⟩,
                ⟨"/_etcd/mod/lock/db/2", "b"⟩] : List LNode).map nodeIndex,
          k ≠ 1 → 1 < k) :=
  mutual_exclusion_invariant "/_etcd/mod/lock/db"
    ⟨7, [⟨"/_etcd/mod/lock/db/1", "a"⟩, ⟨"/_etcd/mod/lock/db/2", "b"⟩]⟩ 1 2
    (by decide) (by decide) (by decide)

/-- C4: Watch Loop algorithm — every iteration consumes a fresh `Get`
of the sibling set (emitting `get` and recursing on the remaining
script); a snapshot whose predecessor query returns 0 terminates the
loop in success at once; a nonzero predecessor issues a blocking watch
on the predecessor's path seeded with the parent's `ModifiedIndex`,
and on normal watch completion the loop repeats from the fresh-snapshot
step; success at an iteration happens exactly when its predecessor
query returned 0. -/
theorem watch_loop_algorithm (kp : String) (i : Int) (it : WatchIter)
    (rest : List WatchIter) (resp : GetResp) (hget : it.getRes = Except.ok resp) :
    (lockNodes.PrevIndex resp.nodes i = 0 →
      watchLoop kp i (it :: rest) = (WatchResult.acquired, [Effect.get kp]))
    ∧ (∀ p : Int, lockNodes.PrevIndex resp.nodes i = p → p ≠ 0 →
        it.watchRes = WRes.ok →
        watchLoop kp i (it :: rest) =
          ((watchLoop kp i rest).fst,
           Effect.get kp
             :: Effect.watchCall (pathJoin kp (toString p)) resp.modifiedIndex
             :: (watchLoop kp i rest).snd))
    ∧ ((watchLoop kp i (it :: rest)).fst = WatchResult.acquired →
        lockNodes.PrevIndex resp.nodes i = 0 ∨
          (watchLoop kp i rest).fst = WatchResult.acquired) := by
  obtain ⟨g, w⟩ := it
  simp only at hget
  subst hget
  refine ⟨?_, ?_, ?_⟩
  · intro h0
    simp [watchLoop, h0]
  · intro p hp hne hw
    simp only at hw
    subst hw
    subst hp
    simp [watchLoop, hne]
  · intro ha
    by_cases h0 : lockNodes.PrevIndex resp.nodes i = 0
    · exact Or.inl h0
    · right
      cases w with
      | ok => simpa [watchLoop, h0] using ha
      | stoppedByUser => simp [watchLoop, h0] at ha
      | err e => simp [watchLoop, h0] at ha

/-- Witness for C4 at a concrete snapshot with a predecessor. -/
theorem watch_loop_algorithm_witness :
    watchLoop "/_etcd/mod/lock/db" 2
        [⟨Except.ok ⟨9, [⟨"/_etcd/mod/lock/db/1", "a"⟩,
                         ⟨"/_etcd/mod/lock/db/2", "b"⟩]⟩, WRes.ok⟩] =
      ((watchLoop "/_etcd/mod/lock/db" 2 []).fst,
       Effect.get "/_etcd/mod/lock/db"
         :: Effect.watchCall (pathJoin "/_etcd/mod/lock/db" (toString (1 : Int))) 9
         :: (watchLoop "/_etcd/mod/lock/db" 2 []).snd) :=
  (watch_loop_algorithm "/_etcd/mod/lock/db" 2
      ⟨Except.ok ⟨9, [⟨"/_etcd/mod/lock/db/1", "a"⟩,
                      ⟨"/_etcd/mod/lock/db/2", "b"⟩]⟩, WRes.ok⟩ []
      ⟨9, [⟨"/_etcd/mod/lock/db/1", "a"⟩, ⟨"/_etcd/mod/lock/db/2", "b"⟩]⟩
      rfl).2.1 1 (by decide) (by decide) rfl

/-- C5: Watch Loop failure handling — a lookup error, a watch stopped
by the stop signal, and any other watch error each terminate the loop
immediately with a failure whose message and effects are independent of
the remaining script (no internal retry): `lock watch lookup error: …`,
`lock watch closed`, and `lock watch error:…` respectively. -/
theorem watch_loop_failures (kp : String) (i : Int) (it : WatchIter)
    (rest : List WatchIter) :
    (∀ e, it.getRes = Except.error e →
      watchLoop kp i (it :: rest) =
        (WatchResult.failed ("lock watch lookup error: " ++ e), [Effect.get kp]))
    ∧ (∀ resp, it.getRes = Except.ok resp →
        lockNodes.PrevIndex resp.nodes i ≠ 0 →
        it.watchRes = WRes.stoppedByUser →
        watchLoop kp i (it :: rest) =
          (WatchResult.failed "lock watch closed",
           [Effect.get kp,
            Effect.watchCall
              (pathJoin kp (toString (lockNodes.PrevIndex resp.nodes i)))
              resp.modifiedIndex]))
    ∧ (∀ resp e, it.getRes = Except.ok resp →
        lockNodes.PrevIndex resp.nodes i ≠ 0 →
        it.watchRes = WRes.err e →
        watchLoop kp i (it :: rest) =
          (WatchResult.failed ("lock watch error:" ++ e),
           [Effect.get kp,
            Effect.watchCall
              (pathJoin kp (toString (lockNodes.PrevIndex resp.nodes i)))
              resp.modifiedIndex])) := by
  obtain ⟨g, w⟩ := it
  refine ⟨?_, ?_, ?_⟩
  · intro e hg
    simp only at hg
    subst hg
    simp [watchLoop]
  · intro resp hg hne hw
    simp only at hg hw
    subst hg
    subst hw
    simp [watchLoop, hne]
  · intro resp e hg hne hw
    simp only at hg hw
    subst hg
    subst hw
    simp [watchLoop, hne]

/-- Witness for C5: the three failure shapes at concrete inputs. -/
theorem watch_loop_failures_witness :
    (watchLoop "/_etcd/mod/lock/db" 2 [⟨Except.error "down", WRes.ok⟩] =
      (WatchResult.failed ("lock watch lookup error: " ++ "down"),
       [Effect.get "/_etcd/mod/lock/db"]))
    ∧ (watchLoop "/_etcd/mod/lock/db" 2
        [⟨Except.ok ⟨9, [⟨"/_etcd/mod/lock/db/1", "a"⟩]⟩, WRes.stoppedByUser⟩] =
      (WatchResult.failed "lock watch closed",
       [Effect.get "/_etcd/mod/lock/db",
        Effect.watchCall
          (pathJoin "/_etcd/mod/lock/db"
            (toString (lockNodes.PrevIndex [⟨"/_etcd/mod/lock/db/1", "a"⟩] 2))) 9]))
    ∧ (watchLoop "/_etcd/mod/lock/db" 2
        [⟨Except.ok ⟨9, [⟨"/_etcd/mod/lock/db/1", "a"⟩]⟩, WRes.err "bad"⟩] =
      (WatchResult.failed ("lock watch error:" ++ "bad"),
       [Effect.get "/_etcd/mod/lock/db",
        Effect.watchCall
          (pathJoin "/_etcd/mod/lock/db"
            (toString (lockNodes.PrevIndex [⟨"/_etcd/mod/lock/db/1", "a"⟩] 2))) 9])) :=
  ⟨(watch_loop_failures "/_etcd/mod/lock/db" 2 ⟨Except.error "down", WRes.ok⟩ []).1
      "down" rfl,
   (watch_loop_failures "/_etcd/mod/lock/db" 2
      ⟨Except.ok ⟨9, [⟨"/_etcd/mod/lock/db/1", "a"⟩]⟩, WRes.stoppedByUser⟩ []).2.1
      ⟨9, [⟨"/_etcd/mod/lock/db/1", "a"⟩]⟩ rfl (by decide) rfl,
   (watch_loop_failures "/_etcd/mod/lock/db" 2
      ⟨Except.ok ⟨9, [⟨"/_etcd/mod/lock/db/1", "a"⟩]⟩, WRes.err "bad"⟩ []).2.2
      ⟨9, [⟨"/_etcd/mod/lock/db/1", "a"⟩]⟩ "bad" rfl (by decide) rfl⟩

/-- C7: Lease Keeper — each timer tick waits `ttl / 2` seconds
(truncating integer division, one-second resolution) and rewrites the
entry with the same value and the original TTL; the loop never
terminates on a tick-only prefix, terminates exactly when the stop
signal is observed, and issues no renewal after the stop signal,
whatever events follow it. -/
theorem lease_keeper_cadence (k v : String) (ttl : Int) (n : Nat)
    (rest : List KeepSig) :
    ttlKeepAlive k v ttl (List.replicate n KeepSig.tick ++ KeepSig.stop :: rest)
      = ((List.replicate n
            [Effect.sleep (Int.tdiv ttl 2), Effect.update k v (uint64 ttl)]).flatten,
         true)
    ∧ ttlKeepAlive k v ttl (List.replicate n KeepSig.tick)
      = ((List.replicate n
            [Effect.sleep (Int.tdiv ttl 2), Effect.update k v (uint64 ttl)]).flatten,
         false) := by
  induction n with
  | zero => simp [ttlKeepAlive]
  | succ m ih =>
      refine ⟨?_, ?_⟩
      · simp [List.replicate_succ, ttlKeepAlive, ih.1]
      · simp [List.replicate_succ, ttlKeepAlive, ih.2]

/-- Unfolding of `acquireHandler` once both parameters parse. -/
theorem acquireHandler_parsed (key value ttlStr timeoutStr : String)
    (env : AcquireEnv) (t timeout0 : Int)
    (htimeout : parseTimeout timeoutStr = some timeout0)
    (httl : Atoi ttlStr = some t) :
    acquireHandler key value ttlStr timeoutStr env =
      (respond (acquireMain (pathJoin lockRoot key) value t env).fst,
       Effect.syncCluster :: (acquireMain (pathJoin lockRoot key) value t env).snd) := by
  simp [acquireHandler, htimeout, httl]

/-- Unfolding of the reuse branch of `acquireMain`. -/
theorem acquireMain_reuse (kp value : String) (t : Int) (env : AcquireEnv)
    (hpos : 0 < (findExistingNode kp value env.getExisting).fst) :
    acquireMain kp value t env =
      (watchToCall (findExistingNode kp value env.getExisting).fst
         (watch kp (findExistingNode kp value env.getExisting).fst false
            env.watchScript).fst,
       (findExistingNode kp value env.getExisting).snd ++
         (watch kp (findExistingNode kp value env.getExisting).fst false
            env.watchScript).snd) := by
  simp [acquireMain, hpos]

/-- Unfolding of the creation branch of `acquireMain`. -/
theorem acquireMain_create (kp value : String) (t : Int) (env : AcquireEnv)
    (hnpos : ¬ 0 < (findExistingNode kp value env.getExisting).fst) :
    acquireMain kp value t env =
      ((createNode kp value t env).fst,
       (findExistingNode kp value env.getExisting).snd ++
         (createNode kp value t env).snd) := by
  simp [acquireMain, hnpos]

/-- `findExistingNode` when the value is non-empty, the `Get` succeeds
and the value is found among the children. -/
theorem findExistingNode_found (kp value : String) (resp : GetResp) (node : LNode)
    (getRes : Except String GetResp)
    (hval : 0 < value.length) (hget : getRes = Except.ok resp)
    (hfind : lockNodes.FindByValue resp.nodes value = some node) :
    findExistingNode kp value getRes = (nodeIndex node, [Effect.get kp]) := by
  subst hget
  simp [findExistingNode, hval, hfind, nodeIndex]

/-- The effect trace of `findExistingNode` is empty or a single `Get`. -/
theorem findExistingNode_snd_cases (kp value : String) (g : Except String GetResp) :
    (findExistingNode kp value g).snd = [] ∨
      (findExistingNode kp value g).snd = [Effect.get kp] := by
  by_cases hv : 0 < value.length
  · cases g with
    | error e => right; simp [findExistingNode, hv]
    | ok resp =>
        cases hf : lockNodes.FindByValue resp.nodes value with
        | none => right; simp [findExistingNode, hv, hf]
        | some node => right; simp [findExistingNode, hv, hf]
  · left; simp [findExistingNode, hv]

/-- The watch loop only ever issues `Get`s and blocking `Watch`es. -/
theorem watchLoop_effects_cases (kp : String) (i : Int) (script : List WatchIter) :
    ∀ e ∈ (watchLoop kp i script).snd,
      (∃ p, e = Effect.get p) ∨ ∃ p w, e = Effect.watchCall p w := by
  induction script with
  | nil => intro e he; simp [watchLoop] at he
  | cons it rest ih =>
      intro e he
      obtain ⟨g, w⟩ := it
      cases g with
      | error msg =>
          simp [watchLoop] at he
          exact Or.inl ⟨kp, he⟩
      | ok resp =>
          by_cases h0 : lockNodes.PrevIndex resp.nodes i = 0
          · simp [watchLoop, h0] at he
            exact Or.inl ⟨kp, he⟩
          · cases w with
            | ok =>
                simp [watchLoop, h0] at he
                rcases he with he | he | he
                · exact Or.inl ⟨kp, he⟩
                · exact Or.inr ⟨_, _, he⟩
                · exact ih e he
            | stoppedByUser =>
                simp [watchLoop, h0] at he
                rcases he with he | he
                · exact Or.inl ⟨kp, he⟩
                · exact Or.inr ⟨_, _, he⟩
            | err msg =>
                simp [watchLoop, h0] at he
                rcases he with he | he
                · exact Or.inl ⟨kp, he⟩
                · exact Or.inr ⟨_, _, he⟩

/-- No `AddChild` is ever issued from inside `watch`. -/
theorem addChild_not_mem_watch (kp : String) (i : Int) (cw : Bool)
    (script : List WatchIter) (kp2 v2 : String) (t2 : Nat) :
    Effect.addChild kp2 v2 t2 ∉ (watch kp i cw script).snd := by
  intro h
  simp [watch] at h
  rcases watchLoop_effects_cases kp i script _ h with ⟨p, hp⟩ | ⟨p, w, hp⟩ <;> cases hp

/-- No `Delete` is ever issued from inside `watch`. -/
theorem delete_not_mem_watch (kp : String) (i : Int) (cw : Bool)
    (script : List WatchIter) (p : String) (b : Bool) :
    Effect.delete p b ∉ (watch kp i cw script).snd := by
  intro h
  simp [watch] at h
  rcases watchLoop_effects_cases kp i script _ h with ⟨q, hq⟩ | ⟨q, w, hq⟩ <;> cases hq

/-- The `AddChild` call is issued whenever `createNode` runs. -/
theorem addChild_mem_createNode (kp value : String) (t : Int) (env : AcquireEnv) :
    Effect.addChild kp (if value.length = 0 then "-" else value) (uint64 t)
      ∈ (createNode kp value t env).snd := by
  cases hadd : env.addChild with
  | error e => simp [createNode, hadd]
  | ok indexpath =>
      cases hw : (watch kp ((Atoi (pathBase indexpath)).getD 0) true
          env.watchScript).fst with
      | acquired => simp [createNode, hadd, hw]
      | failed m => simp [createNode, hadd, hw]
      | running => simp [createNode, hadd, hw]

/-- Unfolding of `createNode` when the entry is created and the watch
loop fails. -/
theorem createNode_failed (kp value : String) (t : Int) (env : AcquireEnv)
    (indexpath m : String)
    (hadd : env.addChild = Except.ok indexpath)
    (hfail : (watch kp ((Atoi (pathBase indexpath)).getD 0) true
        env.watchScript).fst = WatchResult.failed m) :
    createNode kp value t env =
      (CallResult.done ((Atoi (pathBase indexpath)).getD 0)
         (some (if env.closeFired then "acquire lock error: user interrupted" else m)),
       Effect.addChild kp (if value.length = 0 then "-" else value) (uint64 t)
         :: Effect.spawnKeepAlive indexpath
              (if value.length = 0 then "-" else value) t
         :: ((watch kp ((Atoi (pathBase indexpath)).getD 0) true
              env.watchScript).snd ++ [Effect.delete indexpath false])) := by
  simp [createNode, hadd, hfail]

/-- Unfolding of `createNode` when the entry is created and the watch
loop acquires the lock. -/
theorem createNode_acquired (kp value : String) (t : Int) (env : AcquireEnv)
    (indexpath : String)
    (hadd : env.addChild = Except.ok indexpath)
    (hacq : (watch kp ((Atoi (pathBase indexpath)).getD 0) true
        env.watchScript).fst = WatchResult.acquired) :
    createNode kp value t env =
      (CallResult.done ((Atoi (pathBase indexpath)).getD 0) none,
       Effect.addChild kp (if value.length = 0 then "-" else value) (uint64 t)
         :: Effect.spawnKeepAlive indexpath
              (if value.length = 0 then "-" else value) t
         :: ((watch kp ((Atoi (pathBase indexpath)).getD 0) true
              env.watchScript).snd
            ++ [Effect.update indexpath
                  (if value.length = 0 then "-" else value) (uint64 t)])) := by
  simp [createNode, hadd, hacq]

/-- C2: Idempotent retry — with a non-empty value whose live entry is
found by the lookup (at a positive index), the handler creates no new
entry: it resolves the existing entry's index and proceeds straight to
the Watch Loop on it, and its whole trace is the cluster sync, the
lookup `Get`, and the Watch Loop's own calls. -/
theorem idempotent_retry (key value ttlStr timeoutStr : String) (env : AcquireEnv)
    (resp : GetResp) (node : LNode) (t timeout0 : Int)
    (htimeout : parseTimeout timeoutStr = some timeout0)
    (httl : Atoi ttlStr = some t)
    (hval : 0 < value.length)
    (hget : env.getExisting = Except.ok resp)
    (hfind : lockNodes.FindByValue resp.nodes value = some node)
    (hidx : 0 < nodeIndex node) :
    acquireHandler key value ttlStr timeoutStr env =
      (respond (watchToCall (nodeIndex node)
         (watch (pathJoin lockRoot key) (nodeIndex node) false
            env.watchScript).fst),
       Effect.syncCluster :: Effect.get (pathJoin lockRoot key)
         :: (watch (pathJoin lockRoot key) (nodeIndex node) false
              env.watchScript).snd)
    ∧ ∀ kp2 v2 t2, Effect.addChild kp2 v2 t2 ∉
        (acquireHandler key value ttlStr timeoutStr env).snd := by
  have hfe := findExistingNode_found (pathJoin lockRoot key) value resp node
    env.getExisting hval hget hfind
  have hpos : 0 < (findExistingNode (pathJoin lockRoot key) value
      env.getExisting).fst := by
    rw [hfe]; exact hidx
  have hmain := acquireMain_reuse (pathJoin lockRoot key) value t env hpos
  have heq := acquireHandler_parsed key value ttlStr timeoutStr env t timeout0
    htimeout httl
  rw [hmain, hfe] at heq
  have heq2 : (acquireHandler key value ttlStr timeoutStr env).snd =
      Effect.syncCluster :: Effect.get (pathJoin lockRoot key)
        :: (watch (pathJoin lockRoot key) (nodeIndex node) false
             env.watchScript).snd := by
    rw [heq]
    simp
  refine ⟨by simpa using heq, ?_⟩
  intro kp2 v2 t2 hmem
  rw [heq2] at hmem
  rcases List.mem_cons.mp hmem with h | h
  · exact Effect.noConfusion h
  rcases List.mem_cons.mp h with h2 | h2
  · exact Effect.noConfusion h2
  · exact addChild_not_mem_watch (pathJoin lockRoot key) (nodeIndex node) false
      env.watchScript kp2 v2 t2 h2

/-- Witness for C2 on a concrete found-entry environment. -/
theorem idempotent_retry_witness :
    acquireHandler "db" "clientA" "10" "" envReuseOk =
      (respond (watchToCall (nodeIndex ⟨"/_etcd/mod/lock/db/2", "clientA"⟩)
         (watch (pathJoin lockRoot "db")
            (nodeIndex ⟨"/_etcd/mod/lock/db/2", "clientA"⟩) false
            envReuseOk.watchScript).fst),
       Effect.syncCluster :: Effect.get (pathJoin lockRoot "db")
         :: (watch (pathJoin lockRoot "db")
              (nodeIndex ⟨"/_etcd/mod/lock/db/2", "clientA"⟩) false
              envReuseOk.watchScript).snd)
    ∧ ∀ kp2 v2 t2, Effect.addChild kp2 v2 t2 ∉
        (acquireHandler "db" "clientA" "10" "" envReuseOk).snd :=
  idempotent_retry "db" "clientA" "10" "" envReuseOk
    ⟨5, [⟨"/_etcd/mod/lock/db/2", "clientA"⟩]⟩
    ⟨"/_etcd/mod/lock/db/2", "clientA"⟩ 10 (-1)
    (by decide) (by decide) (by decide) (by decide) (by decide) (by decide)

/-- C3: Cleanup on failure with a frame condition — when this call
created its own entry and the Watch Loop failed, the handler issues
`Delete` on the created entry's path; when the call resolved a
pre-existing entry through the find-by-value lookup, its trace contains
no `Delete` at all. -/
theorem cleanup_on_failure (key value ttlStr timeoutStr : String) (env : AcquireEnv)
    (t timeout0 : Int) (indexpath m : String)
    (htimeout : parseTimeout timeoutStr = some timeout0)
    (httl : Atoi ttlStr = some t) :
    ((findExistingNode (pathJoin lockRoot key) value env.getExisting).fst ≤ 0 →
      env.addChild = Except.ok indexpath →
      (watch (pathJoin lockRoot key) ((Atoi (pathBase indexpath)).getD 0) true
          env.watchScript).fst = WatchResult.failed m →
      Effect.delete indexpath false ∈
        (acquireHandler key value ttlStr timeoutStr env).snd)
    ∧ (0 < (findExistingNode (pathJoin lockRoot key) value env.getExisting).fst →
      ∀ p b, Effect.delete p b ∉
        (acquireHandler key value ttlStr timeoutStr env).snd) := by
  have heq := acquireHandler_parsed key value ttlStr timeoutStr env t timeout0
    htimeout httl
  constructor
  · intro hle hadd hfail
    have hnpos : ¬ 0 < (findExistingNode (pathJoin lockRoot key) value
        env.getExisting).fst := by omega
    have hmain := acquireMain_create (pathJoin lockRoot key) value t env hnpos
    have hcr := createNode_failed (pathJoin lockRoot key) value t env indexpath m
      hadd hfail
    rw [heq, hmain, hcr]
    simp
  · intro hpos p b hmem
    have hmain := acquireMain_reuse (pathJoin lockRoot key) value t env hpos
    rw [heq, hmain] at hmem
    rcases List.mem_cons.mp hmem with h | h
    · exact Effect.noConfusion h
    rcases List.mem_append.mp h with h2 | h2
    · rcases findExistingNode_snd_cases (pathJoin lockRoot key) value
        env.getExisting with hc | hc
      · rw [hc] at h2
        exact absurd h2 (List.not_mem_nil _)
      · rw [hc] at h2
        rcases List.mem_cons.mp h2 with h3 | h3
        · exact Effect.noConfusion h3
        · exact absurd h3 (List.not_mem_nil _)
    · exact delete_not_mem_watch (pathJoin lockRoot key)
        (findExistingNode (pathJoin lockRoot key) value env.getExisting).fst false
        env.watchScript p b h2

/-- Witness for C3: a failing created entry is deleted; a failing
reused entry is not. -/
theorem cleanup_on_failure_witness :
    Effect.delete "/_etcd/mod/lock/db/4" false ∈
      (acquireHandler "db" "" "10" "" envCreateFail).snd
    ∧ ∀ p b, Effect.delete p b ∉
        (acquireHandler "db" "clientA" "10" "" envReuseCancel).snd :=
  ⟨(cleanup_on_failure "db" "" "10" "" envCreateFail 10 (-1) "/_etcd/mod/lock/db/4"
      ("lock watch error:" ++ "conn reset") (by decide) (by decide)).1
      (by decide) (by decide) (by decide),
   fun p b =>
    (cleanup_on_failure "db" "clientA" "10" "" envReuseCancel 10 (-1) "unused" "m"
      (by decide) (by decide)).2 (by decide) p b⟩


/-- A positive find result always comes from the lookup branch, whose
trace is the single `Get`. -/
theorem findExistingNode_pos_snd (kp value : String) (g : Except String GetResp)
    (h : 0 < (findExistingNode kp value g).fst) :
    (findExistingNode kp value g).snd = [Effect.get kp] := by
  by_cases hv : 0 < value.length
  · cases g with
    | error e => exfalso; simp [findExistingNode, hv] at h
    | ok resp =>
        cases hf : lockNodes.FindByValue resp.nodes value with
        | none => simp [findExistingNode, hv, hf]
        | some node => simp [findExistingNode, hv, hf]
  · exfalso; simp [findExistingNode, hv] at h

/-- No `watchStart` marker is emitted from inside the watch loop
itself (it is emitted once, on entry to `watch`). -/
theorem watchStart_not_mem_watchLoop (kp : String) (i : Int)
    (script : List WatchIter) (b : Bool) :
    Effect.watchStart b ∉ (watchLoop kp i script).snd := by
  intro h
  rcases watchLoop_effects_cases kp i script _ h with ⟨q, hq⟩ | ⟨q, w, hq⟩ <;> cases hq

/-- C6 counterexample: `strconv.Atoi` accepts a negative ttl, and the
handler then proceeds to the store (creating an entry with the wrapped
`uint64` ttl) instead of rejecting the request. -/
theorem negative_ttl_accepted :
    Atoi "-5" = some (-5)
    ∧ (acquireHandler "db" "" "-5" "" envCreateOk).fst = HResult.ok 3
    ∧ Effect.addChild (pathJoin lockRoot "db") "-" (uint64 (-5)) ∈
        (acquireHandler "db" "" "-5" "" envCreateOk).snd :=
  ⟨by decide, by decide, by decide⟩

/-- C6 (amended): a malformed timeout or ttl is rejected with an
`invalid timeout:`/`invalid ttl:` error and the only client call issued
is the cluster sync — no lock-store operation happens; any ttl that
`Atoi` accepts (negative included) proceeds to a lock-store
operation. -/
theorem ttl_timeout_validation (key value ttlStr timeoutStr : String)
    (env : AcquireEnv) :
    (timeoutStr ≠ "" → Atoi timeoutStr = none →
      acquireHandler key value ttlStr timeoutStr env =
        (HResult.httpError ("invalid timeout: " ++ timeoutStr),
         [Effect.syncCluster]))
    ∧ (parseTimeout timeoutStr ≠ none → Atoi ttlStr = none →
      acquireHandler key value ttlStr timeoutStr env =
        (HResult.httpError ("invalid ttl: " ++ ttlStr), [Effect.syncCluster]))
    ∧ (∀ t : Int, parseTimeout timeoutStr ≠ none → Atoi ttlStr = some t →
      ∃ e ∈ (acquireHandler key value ttlStr timeoutStr env).snd,
        isStoreOp e = true) := by
  refine ⟨?_, ?_, ?_⟩
  · intro hne hnone
    simp [acquireHandler, parseTimeout, hne, hnone]
  · intro hpt hnone
    obtain ⟨t0, ht0⟩ := Option.ne_none_iff_exists'.mp hpt
    simp [acquireHandler, ht0, hnone]
  · intro t hpt httl
    obtain ⟨t0, ht0⟩ := Option.ne_none_iff_exists'.mp hpt
    have heq := acquireHandler_parsed key value ttlStr timeoutStr env t t0 ht0 httl
    by_cases hpos : 0 < (findExistingNode (pathJoin lockRoot key) value
        env.getExisting).fst
    · have hmain := acquireMain_reuse (pathJoin lockRoot key) value t env hpos
      have hsnd := findExistingNode_pos_snd (pathJoin lockRoot key) value
        env.getExisting hpos
      refine ⟨Effect.get (pathJoin lockRoot key), ?_, rfl⟩
      rw [heq, hmain]
      exact List.mem_cons_of_mem _
        (List.mem_append_left _ (by rw [hsnd]; exact List.mem_singleton.mpr rfl))
    · have hmain := acquireMain_create (pathJoin lockRoot key) value t env hpos
      refine ⟨Effect.addChild (pathJoin lockRoot key)
        (if value.length = 0 then "-" else value) (uint64 t), ?_, rfl⟩
      rw [heq, hmain]
      exact List.mem_cons_of_mem _
        (List.mem_append_right _
          (addChild_mem_createNode (pathJoin lockRoot key) value t env))

/-- Witness for C6 (amended): concrete rejections and a concrete
negative-ttl run that reaches the store. -/
theorem ttl_timeout_validation_witness :
    acquireHandler "db" "clientA" "10" "zz" envCreateOk =
      (HResult.httpError ("invalid timeout: " ++ "zz"), [Effect.syncCluster])
    ∧ acquireHandler "db" "clientA" "abc" "" envCreateOk =
      (HResult.httpError ("invalid ttl: " ++ "abc"), [Effect.syncCluster])
    ∧ ∃ e ∈ (acquireHandler "db" "" "-5" "" envCreateOk).snd, isStoreOp e = true :=
  ⟨(ttl_timeout_validation "db" "clientA" "10" "zz" envCreateOk).1
      (by decide) (by decide),
   (ttl_timeout_validation "db" "clientA" "abc" "" envCreateOk).2.1
      (by decide) (by decide),
   (ttl_timeout_validation "db" "" "-5" "" envCreateOk).2.2 (-5)
      (by decide) (by decide)⟩

/-- C8 counterexample: on the find-existing reuse path the watch runs
with a nil close channel (`watchStart false`), and even though the
client's close notification has fired, a stopped watch is reported as
the store-level `lock watch closed` failure, not as the distinct
`user interrupted` one. -/
theorem reuse_path_cancellation_not_wired :
    (acquireHandler "db" "clientA" "10" "" envReuseCancel).fst =
      HResult.httpError "lock watch closed"
    ∧ (acquireHandler "db" "clientA" "10" "" envReuseCancel).fst ≠
      HResult.httpError "acquire lock error: user interrupted"
    ∧ Effect.watchStart false ∈
        (acquireHandler "db" "clientA" "10" "" envReuseCancel).snd
    ∧ Effect.watchStart true ∉
        (acquireHandler "db" "clientA" "10" "" envReuseCancel).snd
    ∧ envReuseCancel.closeFired = true :=
  ⟨by decide, by decide, by decide, by decide, by decide⟩

/-- C8 (amended): the external cancellation signal is wired into the
blocking watch only on the creation path, where a Watch Loop failure
with the close signal fired is reported as the distinct
`acquire lock error: user interrupted` failure; the find-existing
reuse path invokes the watch with a nil close channel and reports
watch failures verbatim. -/
theorem cancellation_wiring (key value ttlStr timeoutStr : String)
    (env : AcquireEnv) (t timeout0 : Int) (indexpath m : String)
    (htimeout : parseTimeout timeoutStr = some timeout0)
    (httl : Atoi ttlStr = some t) :
    ((findExistingNode (pathJoin lockRoot key) value env.getExisting).fst ≤ 0 →
      env.addChild = Except.ok indexpath →
      (watch (pathJoin lockRoot key) ((Atoi (pathBase indexpath)).getD 0) true
          env.watchScript).fst = WatchResult.failed m →
      (Effect.watchStart true ∈
          (acquireHandler key value ttlStr timeoutStr env).snd
       ∧ (env.closeFired = true →
          (acquireHandler key value ttlStr timeoutStr env).fst =
            HResult.httpError "acquire lock error: user interrupted")))
    ∧ (0 < (findExistingNode (pathJoin lockRoot key) value env.getExisting).fst →
      (Effect.watchStart false ∈
          (acquireHandler key value ttlStr timeoutStr env).snd
       ∧ Effect.watchStart true ∉
          (acquireHandler key value ttlStr timeoutStr env).snd
       ∧ ((watch (pathJoin lockRoot key)
             (findExistingNode (pathJoin lockRoot key) value
               env.getExisting).fst false env.watchScript).fst =
             WatchResult.failed m →
          (acquireHandler key value ttlStr timeoutStr env).fst =
            HResult.httpError m))) := by
  have heq := acquireHandler_parsed key value ttlStr timeoutStr env t timeout0
    htimeout httl
  constructor
  · intro hle hadd hfail
    have hnpos : ¬ 0 < (findExistingNode (pathJoin lockRoot key) value
        env.getExisting).fst := by omega
    have hmain := acquireMain_create (pathJoin lockRoot key) value t env hnpos
    have hcr := createNode_failed (pathJoin lockRoot key) value t env indexpath m
      hadd hfail
    constructor
    · rw [heq, hmain, hcr]
      simp [watch]
    · intro hclose
      rw [heq, hmain, hcr]
      simp [respond, hclose]
  · intro hpos
    have hmain := acquireMain_reuse (pathJoin lockRoot key) value t env hpos
    have hsnd := findExistingNode_pos_snd (pathJoin lockRoot key) value
      env.getExisting hpos
    refine ⟨?_, ?_, ?_⟩
    · rw [heq, hmain]
      simp [watch]
    · intro hmem
      rw [heq, hmain] at hmem
      rcases List.mem_cons.mp hmem with h | h
      · exact Effect.noConfusion h
      rcases List.mem_append.mp h with h2 | h2
      · rw [hsnd] at h2
        rcases List.mem_cons.mp h2 with h3 | h3
        · exact Effect.noConfusion h3
        · exact absurd h3 (List.not_mem_nil _)
      · rcases List.mem_cons.mp h2 with h3 | h3
        · cases h3
        · exact watchStart_not_mem_watchLoop (pathJoin lockRoot key)
            (findExistingNode (pathJoin lockRoot key) value env.getExisting).fst
            env.watchScript true h3
    · intro hfail
      rw [heq, hmain]
      simp [hfail, watchToCall, respond]

/-- Witness for C8 (amended): the creation path with the close signal
fired reports `user interrupted`; the reuse path leaves the close
signal unwired. -/
theorem cancellation_wiring_witness :
    (Effect.watchStart true ∈
        (acquireHandler "db" "" "10" ""
          { envCreateFail with closeFired := true }).snd
     ∧ (acquireHandler "db" "" "10" ""
          { envCreateFail with closeFired := true }).fst =
        HResult.httpError "acquire lock error: user interrupted")
    ∧ (Effect.watchStart false ∈
        (acquireHandler "db" "clientA" "10" "" envReuseCancel).snd
       ∧ Effect.watchStart true ∉
          (acquireHandler "db" "clientA" "10" "" envReuseCancel).snd
       ∧ (acquireHandler "db" "clientA" "10" "" envReuseCancel).fst =
          HResult.httpError "lock watch closed") := by
  have h1 := (cancellation_wiring "db" "" "10" ""
    { envCreateFail with closeFired := true } 10 (-1) "/_etcd/mod/lock/db/4"
    ("lock watch error:" ++ "conn reset") (by decide) (by decide)).1
    (by decide) (by decide) (by decide)
  have h2 := (cancellation_wiring "db" "clientA" "10" "" envReuseCancel 10 (-1)
    "unused" "lock watch closed" (by decide) (by decide)).2 (by decide)
  exact ⟨⟨h1.1, h1.2 (by decide)⟩, ⟨h2.1, h2.2.1, h2.2.2 (by decide)⟩⟩

/-- C9: the result of the final ownership-asserting `Update` is
discarded — the handler's outcome is unchanged when that refresh
errors, and a creation-path call whose watch succeeded reports success
with the acquired index while the `Update` call is still issued. -/
theorem final_update_ignored (key value ttlStr timeoutStr : String)
    (env : AcquireEnv) (t timeout0 : Int) (indexpath m : String)
    (htimeout : parseTimeout timeoutStr = some timeout0)
    (httl : Atoi ttlStr = some t)
    (hnofind : (findExistingNode (pathJoin lockRoot key) value
        env.getExisting).fst ≤ 0)
    (hadd : env.addChild = Except.ok indexpath)
    (hacq : (watch (pathJoin lockRoot key) ((Atoi (pathBase indexpath)).getD 0)
        true env.watchScript).fst = WatchResult.acquired) :
    acquireHandler key value ttlStr timeoutStr
        { env with finalUpdate := Except.error m }
      = acquireHandler key value ttlStr timeoutStr env
    ∧ (acquireHandler key value ttlStr timeoutStr env).fst =
        HResult.ok ((Atoi (pathBase indexpath)).getD 0)
    ∧ Effect.update indexpath (if value.length = 0 then "-" else value)
        (uint64 t) ∈ (acquireHandler key value ttlStr timeoutStr env).snd := by
  have heq := acquireHandler_parsed key value ttlStr timeoutStr env t timeout0
    htimeout httl
  have hnpos : ¬ 0 < (findExistingNode (pathJoin lockRoot key) value
      env.getExisting).fst := by omega
  have hmain := acquireMain_create (pathJoin lockRoot key) value t env hnpos
  have hcr := createNode_acquired (pathJoin lockRoot key) value t env indexpath
    hadd hacq
  refine ⟨rfl, ?_, ?_⟩
  · rw [heq, hmain, hcr]
    simp [respond]
  · rw [heq, hmain, hcr]
    simp

/-- Witness for C9 on a concrete immediate-acquire creation run with a
failing final refresh. -/
theorem final_update_ignored_witness :
    acquireHandler "db" "" "10" ""
        { envCreateOk with finalUpdate := Except.error "refresh failed" }
      = acquireHandler "db" "" "10" "" envCreateOk
    ∧ (acquireHandler "db" "" "10" "" envCreateOk).fst =
        HResult.ok ((Atoi (pathBase "/_etcd/mod/lock/db/3")).getD 0)
    ∧ Effect.update "/_etcd/mod/lock/db/3"
        (if ("" : String).length = 0 then "-" else "") (uint64 10) ∈
        (acquireHandler "db" "" "10" "" envCreateOk).snd :=
  final_update_ignored "db" "" "10" "" envCreateOk 10 (-1)
    "/_etcd/mod/lock/db/3" "refresh failed"
    (by decide) (by decide) (by decide) (by decide) (by decide)

/-- C10: a `Get` failure inside `findExistingNode` is swallowed and
treated as "no existing entry", so an acquire with a non-empty value
falls through to creating a fresh entry instead of failing. -/
theorem find_get_error_swallowed (key value ttlStr timeoutStr e : String)
    (env : AcquireEnv) (t timeout0 : Int)
    (htimeout : parseTimeout timeoutStr = some timeout0)
    (httl : Atoi ttlStr = some t)
    (hval : 0 < value.length)
    (hget : env.getExisting = Except.error e) :
    (findExistingNode (pathJoin lockRoot key) value env.getExisting).fst = 0
    ∧ Effect.addChild (pathJoin lockRoot key) value (uint64 t) ∈
        (acquireHandler key value ttlStr timeoutStr env).snd := by
  have hfz : findExistingNode (pathJoin lockRoot key) value env.getExisting =
      (0, [Effect.get (pathJoin lockRoot key)]) := by
    rw [hget]
    simp [findExistingNode, hval]
  have hnpos : ¬ 0 < (findExistingNode (pathJoin lockRoot key) value
      env.getExisting).fst := by rw [hfz]; simp
  have heq := acquireHandler_parsed key value ttlStr timeoutStr env t timeout0
    htimeout httl
  have hmain := acquireMain_create (pathJoin lockRoot key) value t env hnpos
  have hvne : ¬ value.length = 0 := by omega
  refine ⟨by rw [hfz], ?_⟩
  rw [heq, hmain]
  refine List.mem_cons_of_mem _ (List.mem_append_right _ ?_)
  have := addChild_mem_createNode (pathJoin lockRoot key) value t env
  rwa [if_neg hvne] at this

/-- Witness for C10: a concrete lookup failure still creates an entry
for the non-empty value. -/
theorem find_get_error_swallowed_witness :
    (findExistingNode (pathJoin lockRoot "db") "clientA"
        ({ envCreateOk with getExisting := Except.error "boom" }).getExisting).fst = 0
    ∧ Effect.addChild (pathJoin lockRoot "db") "clientA" (uint64 10) ∈
        (acquireHandler "db" "clientA" "10" ""
          { envCreateOk with getExisting := Except.error "boom" }).snd :=
  find_get_error_swallowed "db" "clientA" "10" "" "boom"
    { envCreateOk with getExisting := Except.error "boom" } 10 (-1)
    (by decide) (by decide) (by decide) (by decide)

end EtcdLock
